import Mathlib

/-
Shallow embedding of services/outside_network.c: the outbound UDP query
dispatcher of a recursive DNS resolver.  Pure data is modelled directly;
the event loop, socket syscalls and the caller's random state are passed
in as explicit parameters (streams and oracles).  Machine integers are
Nat with explicit truncation where the C code masks.
-/

/-- Address family constant AF_INET (value as on Linux; the code only needs
the constants to be distinct). -/
def AF_INET : Nat := 2

/-- Address family constant AF_INET6. -/
def AF_INET6 : Nat := 10

/-- Number of times new_pending retries making a random ID that is unique
(MAX_ID_RETRY in the C source). -/
def MAX_ID_RETRY : Nat := 1000

/-- Byte size of an ip4 address (INET_SIZE). -/
def INET_SIZE : Nat := 4

/-- Byte size of an ip6 address (INET6_SIZE). -/
def INET6_SIZE : Nat := 16

/-- Status codes delivered to comm point callbacks (NETEVENT_NOERROR,
NETEVENT_TIMEOUT, NETEVENT_CLOSED in util/netevent.h). -/
inductive NetEvent where
  | noerror
  | timeout
  | closed
deriving DecidableEq, Repr

/-- Model of struct sockaddr_storage as the dispatcher reads it: the
family field (first 16-bit short), the port field, and the raw address
bytes (sin_addr / sin6_addr).  Only these parts are ever inspected by
the C code. -/
structure Sockaddr where
  family : Nat
  port : Nat
  addrBytes : List Nat
deriving DecidableEq, Repr

/-- Model of struct pending: the per-query record.  The comm point and
timer pointers are modelled as an optional socket identifier and an
armed flag; the user callback and its argument are identified by a tag. -/
structure Pending where
  id : Nat
  addr : Sockaddr
  addrlen : Nat
  c : Option Nat
  timerArmed : Bool
  cbTag : Nat
deriving DecidableEq, Repr

/-- Model of struct outside_network: the pending rbtree (as a list of
live Pendings with pairwise distinct keys) and the per-family port
arrays with their counts.  Array cells are Option Nat: none is a NULL
comm point pointer. -/
structure OutsideNetwork where
  pending : List Pending
  num_udp4 : Nat
  udp4_ports : List (Option Nat)
  num_udp6 : Nat
  udp6_ports : List (Option Nat)
deriving DecidableEq, Repr

/-- Model of struct comm_reply as used by outnet_udp_cb: the source
address of the received datagram and its length. -/
structure CommReply where
  addr : Sockaddr
  addrlen : Nat
deriving DecidableEq, Repr

/-- Observable actions of the dispatcher: user callback invocations,
send attempts over a comm point, and the log lines of the error paths. -/
inductive Event where
  | callback (cbTag : Nat) (status : NetEvent)
  | send (c : Option Nat)
  | logUdpError
  | logUnsolicited
  | logWrongPort
  | logNoPorts
  | logIdRetryFail
deriving DecidableEq, Repr

/-- Three-way lexicographic comparison of byte lists, the reference
order used to reason about pending_cmp.  Returns -1, 0 or 1 like memcmp
restricted to those values. -/
def listCompare : List Nat → List Nat → Int
  | [], [] => 0
  | [], _ :: _ => -1
  | _ :: _, [] => 1
  | a :: l1, b :: l2 =>
    if a < b then -1
    else if b < a then 1
    else listCompare l1 l2

theorem listCompare_eq_zero : ∀ l1 l2 : List Nat, listCompare l1 l2 = 0 ↔ l1 = l2 := by
  intro l1
  induction l1 with
  | nil =>
    intro l2
    cases l2 with
    | nil => simp [listCompare]
    | cons b t => simp [listCompare]
  | cons a t1 ih =>
    intro l2
    cases l2 with
    | nil => simp [listCompare]
    | cons b t2 =>
      by_cases hab : a < b
      · have hne : a ≠ b := Nat.ne_of_lt hab
        simp [listCompare, hab, hne]
      · by_cases hba : b < a
        · have hne : a ≠ b := (Nat.ne_of_lt hba).symm
          simp [listCompare, hab, hba, hne]
        · have heq : a = b := Nat.le_antisymm (Nat.le_of_not_lt hba) (Nat.le_of_not_lt hab)
          subst heq
          simp [listCompare, ih t2]

theorem listCompare_swap : ∀ l1 l2 : List Nat, listCompare l2 l1 = -listCompare l1 l2 := by
  intro l1
  induction l1 with
  | nil =>
    intro l2
    cases l2 with
    | nil => simp [listCompare]
    | cons b t => simp [listCompare]
  | cons a t1 ih =>
    intro l2
    cases l2 with
    | nil => simp [listCompare]
    | cons b t2 =>
      by_cases hab : a < b
      · have hba : ¬ b < a := Nat.lt_asymm hab
        simp [listCompare, hab, hba]
      · by_cases hba : b < a
        · simp [listCompare, hab, hba]
        · simp [listCompare, hab, hba, ih t2]

theorem listCompare_trans :
    ∀ l1 l2 l3 : List Nat, listCompare l1 l2 ≤ 0 → listCompare l2 l3 ≤ 0 →
    listCompare l1 l3 ≤ 0 := by
  intro l1
  induction l1 with
  | nil =>
    intro l2 l3 _ _
    cases l3 with
    | nil => simp [listCompare]
    | cons c t3 => simp [listCompare]
  | cons a t1 ih =>
    intro l2 l3 h12 h23
    cases l2 with
    | nil => simp [listCompare] at h12
    | cons b t2 =>
      cases l3 with
      | nil => simp [listCompare] at h23
      | cons c t3 =>
        by_cases hab : a < b
        · by_cases hbc : b < c
          · have hac : a < c := Nat.lt_trans hab hbc
            simp [listCompare, hac]
          · by_cases hcb : c < b
            · simp [listCompare, hbc, hcb] at h23
            · have hbc' : b = c :=
                Nat.le_antisymm (Nat.le_of_not_lt hcb) (Nat.le_of_not_lt hbc)
              subst hbc'
              simp [listCompare, hab]
        · by_cases hba : b < a
          · simp [listCompare, hab, hba] at h12
          · have hab' : a = b :=
              Nat.le_antisymm (Nat.le_of_not_lt hba) (Nat.le_of_not_lt hab)
            subst hab'
            by_cases hac : a < c
            · simp [listCompare, hac]
            · by_cases hca : c < a
              · simp [listCompare, hac, hca] at h23
              · have hac' : a = c :=
                  Nat.le_antisymm (Nat.le_of_not_lt hca) (Nat.le_of_not_lt hac)
                subst hac'
                simp [listCompare, hac, hca] at h12 h23 ⊢
                exact ih t2 t3 h12 h23

/-- Comparison of n bytes of two byte lists, as memcmp(a, b, n) over the
modelled bytes (restricted to returning -1, 0, 1, which is all the rbtree
uses of the memcmp result). -/
def memcmpN (l1 l2 : List Nat) (n : Nat) : Int :=
  listCompare (l1.take n) (l2.take n)

/-- Little-endian two-byte serialization of a 16-bit field, used to lay
out the leading fields of sockaddr_storage for the unknown-family memcmp
fallback of pending_cmp. -/
def encode2 (n : Nat) : List Nat := [n % 256, n / 256 % 256]

/-- Byte layout of the modelled sockaddr_storage: the family short, the
port field, then the address bytes.  Only the unknown-family fallback
branch of pending_cmp reads the storage as raw bytes. -/
def sockaddrBytes (a : Sockaddr) : List Nat :=
  encode2 a.family ++ encode2 a.port ++ a.addrBytes

/-- Compare function of the pending rbtree (pending_cmp in the C source):
id, then addrlen, then family, then port in stored byte order, then the
raw address bytes, 4 for AF_INET and 16 for AF_INET6; unknown families
fall back to memcmp over the first addrlen bytes of the address storage. -/
def pending_cmp (p1 p2 : Pending) : Int :=
  if p1.id < p2.id then -1
  else if p2.id < p1.id then 1
  else if p1.addrlen < p2.addrlen then -1
  else if p2.addrlen < p1.addrlen then 1
  else if p1.addr.family < p2.addr.family then -1
  else if p2.addr.family < p1.addr.family then 1
  else if p1.addr.family = AF_INET then
    if p1.addr.port < p2.addr.port then -1
    else if p2.addr.port < p1.addr.port then 1
    else memcmpN p1.addr.addrBytes p2.addr.addrBytes INET_SIZE
  else if p1.addr.family = AF_INET6 then
    if p1.addr.port < p2.addr.port then -1
    else if p2.addr.port < p1.addr.port then 1
    else memcmpN p1.addr.addrBytes p2.addr.addrBytes INET6_SIZE
  else memcmpN (sockaddrBytes p1.addr) (sockaddrBytes p2.addr) p1.addrlen

/-- Serialization of the fields pending_cmp compares, in the order it
compares them; pending_cmp is exactly lexicographic comparison of this
vector (proved below). -/
def pendingVec (p : Pending) : List Nat :=
  p.id :: p.addrlen :: p.addr.family ::
  (if p.addr.family = AF_INET then
    p.addr.port :: p.addr.addrBytes.take INET_SIZE
  else if p.addr.family = AF_INET6 then
    p.addr.port :: p.addr.addrBytes.take INET6_SIZE
  else (sockaddrBytes p.addr).take p.addrlen)

/-- Key tuple of a Pending as the specification words it: id, address
length, family, port, and the raw address bytes (4 for IPv4, 16 for
IPv6).  This definition follows the spec's words, for comparison against
the source-derived pending_cmp. -/
def specKeyTuple (p : Pending) : Nat × Nat × Nat × Nat × List Nat :=
  (p.id, p.addrlen, p.addr.family, p.addr.port,
   if p.addr.family = AF_INET then p.addr.addrBytes.take INET_SIZE
   else if p.addr.family = AF_INET6 then p.addr.addrBytes.take INET6_SIZE
   else p.addr.addrBytes)

theorem pending_cmp_eq_listCompare (p1 p2 : Pending) :
    pending_cmp p1 p2 = listCompare (pendingVec p1) (pendingVec p2) := by
  unfold pending_cmp pendingVec
  by_cases h1 : p1.id < p2.id
  · simp [listCompare, h1]
  · by_cases h2 : p2.id < p1.id
    · simp [listCompare, h1, h2]
    · simp only [listCompare, if_neg h1, if_neg h2]
      by_cases h3 : p1.addrlen < p2.addrlen
      · simp [listCompare, h3]
      · by_cases h4 : p2.addrlen < p1.addrlen
        · simp [listCompare, h3, h4]
        · have hlen : p1.addrlen = p2.addrlen :=
            Nat.le_antisymm (Nat.le_of_not_lt h4) (Nat.le_of_not_lt h3)
          simp only [listCompare, if_neg h3, if_neg h4]
          by_cases h5 : p1.addr.family < p2.addr.family
          · simp [listCompare, h5]
          · by_cases h6 : p2.addr.family < p1.addr.family
            · simp [listCompare, h5, h6]
            · have hfam : p1.addr.family = p2.addr.family :=
                Nat.le_antisymm (Nat.le_of_not_lt h6) (Nat.le_of_not_lt h5)
              simp only [listCompare, if_neg h5, if_neg h6]
              by_cases hf4 : p1.addr.family = AF_INET
              · have hf4' : p2.addr.family = AF_INET := hfam ▸ hf4
                simp only [if_pos hf4, if_pos hf4']
                by_cases hp1 : p1.addr.port < p2.addr.port
                · simp [listCompare, hp1]
                · by_cases hp2 : p2.addr.port < p1.addr.port
                  · simp [listCompare, hp1, hp2]
                  · simp [listCompare, hp1, hp2, memcmpN]
              · have hf4' : ¬ p2.addr.family = AF_INET := hfam ▸ hf4
                simp only [if_neg hf4, if_neg hf4']
                by_cases hf6 : p1.addr.family = AF_INET6
                · have hf6' : p2.addr.family = AF_INET6 := hfam ▸ hf6
                  simp only [if_pos hf6, if_pos hf6']
                  by_cases hp1 : p1.addr.port < p2.addr.port
                  · simp [listCompare, hp1]
                  · by_cases hp2 : p2.addr.port < p1.addr.port
                    · simp [listCompare, hp1, hp2]
                    · simp [listCompare, hp1, hp2, memcmpN]
                · have hf6' : ¬ p2.addr.family = AF_INET6 := hfam ▸ hf6
                  simp only [if_neg hf6, if_neg hf6']
                  simp [memcmpN, hlen]

theorem pending_cmp_swap (p1 p2 : Pending) :
    pending_cmp p2 p1 = -pending_cmp p1 p2 := by
  rw [pending_cmp_eq_listCompare, pending_cmp_eq_listCompare, listCompare_swap]

theorem pending_cmp_zero_iff (p1 p2 : Pending) :
    pending_cmp p1 p2 = 0 ↔ pendingVec p1 = pendingVec p2 := by
  rw [pending_cmp_eq_listCompare, listCompare_eq_zero]

theorem pending_cmp_self (p : Pending) : pending_cmp p p = 0 := by
  rw [pending_cmp_zero_iff]

theorem pending_cmp_zero_trans {p1 p2 p3 : Pending}
    (h12 : pending_cmp p1 p2 = 0) (h23 : pending_cmp p2 p3 = 0) :
    pending_cmp p1 p3 = 0 := by
  rw [pending_cmp_zero_iff] at h12 h23 ⊢
  exact h12.trans h23

theorem pending_cmp_zero_symm {p1 p2 : Pending}
    (h : pending_cmp p1 p2 = 0) : pending_cmp p2 p1 = 0 := by
  rw [pending_cmp_zero_iff] at h ⊢
  exact h.symm

/-- Read of the 16-bit DNS transaction ID from the first two bytes of a
packet in wire (network) byte order, LDNS_ID_WIRE. -/
def ldns_id_wire (packet : List Nat) : Nat :=
  packet.getD 0 0 * 256 + packet.getD 1 0

/-- Write of a 16-bit DNS transaction ID into the first two bytes of a
packet in wire byte order, LDNS_ID_SET. -/
def ldns_id_set (packet : List Nat) (id : Nat) : List Nat :=
  (packet.set 0 (id / 256)).set 1 (id % 256)

/-- ID derivation of new_pending: the low byte of the random word is
discarded before masking to 16 bits, pend->id = (ub_random(rnd) >> 8) & 0xffff. -/
def idFromRandom (r : Nat) : Nat := (r >>> 8) % 65536

/-- Success condition of rbtree_insert on the pending tree: insertion
fails exactly when some live Pending already compares equal to the new
key under pending_cmp. -/
def insertOk (s : OutsideNetwork) (pend : Pending) : Bool :=
  s.pending.all (fun q => pending_cmp q pend != 0)

/-- Removal of a Pending from the dispatcher (pending_delete with a
non-NULL outnet): rbtree_delete removes the node whose key compares
equal to p; the timer is released and the storage freed with it. -/
def pending_delete (s : OutsideNetwork) (p : Pending) : OutsideNetwork :=
  { s with pending := s.pending.eraseP (fun q => pending_cmp q p == 0) }

/-- Lookup key built by outnet_udp_cb from a received datagram: the wire
ID from the buffer and the source address of the reply.  The fields the
comparison never reads are left at their zero values, as the C code
leaves them uninitialized on the stack. -/
def reply_key (buffer : List Nat) (reply : CommReply) : Pending :=
  { id := ldns_id_wire buffer, addr := reply.addr, addrlen := reply.addrlen,
    c := none, timerArmed := false, cbTag := 0 }

/-- Callback for incoming udp answers (outnet_udp_cb): on a nonzero
error status it logs and returns; otherwise it looks up the reply key,
drops unsolicited datagrams, drops replies arriving on a comm point
other than the Pending's chosen one, and on a full match disables the
timer, fires the user callback with NETEVENT_NOERROR and deletes the
Pending. -/
def outnet_udp_cb (s : OutsideNetwork) (c : Nat) (buffer : List Nat)
    (error : NetEvent) (reply : CommReply) : OutsideNetwork × List Event :=
  if error ≠ NetEvent.noerror then (s, [Event.logUdpError])
  else
    let key := reply_key buffer reply
    match s.pending.find? (fun q => pending_cmp q key == 0) with
    | none => (s, [Event.logUnsolicited])
    | some p =>
      if p.c ≠ some c then (s, [Event.logWrongPort])
      else (pending_delete s p, [Event.callback p.cbTag NetEvent.noerror])

/-- Callback for udp timeout (pending_udp_timer_cb): fire the user
callback with NETEVENT_TIMEOUT, then delete the Pending (which unlinks
it from the pending tree). -/
def pending_udp_timer_cb (s : OutsideNetwork) (p : Pending) :
    OutsideNetwork × List Event :=
  (pending_delete s p, [Event.callback p.cbTag NetEvent.timeout])

/-- Retry loop of new_pending.  fuel counts the remaining values of
id_tries before MAX_ID_RETRY is reached: each failed insertion
regenerates the ID, patches the packet and decrements fuel; when fuel is
exhausted, the code logs and gives up without invoking anything.  On
that abort path the C code has just drawn one more random ID and patched
it into the caller's buffer before the id_tries check stops it; the
model omits that final dead write, since the Pending is dropped and no
caller reads the abandoned buffer. -/
def new_pending_go (s : OutsideNetwork) (rnd : Nat → Nat) :
    Nat → Pending → List Nat → Nat →
    Option (Pending × List Nat × Nat) × List Event
  | 0, pend, packet, pos =>
    if insertOk s pend then (some (pend, packet, pos), [])
    else (none, [Event.logIdRetryFail])
  | fuel' + 1, pend, packet, pos =>
    if insertOk s pend then (some (pend, packet, pos), [])
    else
      let id := idFromRandom (rnd pos)
      new_pending_go s rnd fuel' { pend with id := id }
        (ldns_id_set packet id) (pos + 1)

/-- Creation of a new pending item (new_pending): allocate the record
and timer, draw a 16-bit ID from the random stream, write it into the
packet, and insert into the pending tree, retrying the ID up to
MAX_ID_RETRY times on collision.  Allocation is assumed to succeed; the
random state is the stream rnd read from position pos.  Returns the
Pending to insert, the patched packet and the next stream position, or
none when ID generation was exhausted. -/
def new_pending (s : OutsideNetwork) (packet : List Nat) (addr : Sockaddr)
    (addrlen : Nat) (cbTag : Nat) (rnd : Nat → Nat) (pos : Nat) :
    Option (Pending × List Nat × Nat) × List Event :=
  let id := idFromRandom (rnd pos)
  let pend : Pending :=
    { id := id, addr := addr, addrlen := addrlen,
      c := none, timerArmed := false, cbTag := cbTag }
  new_pending_go s rnd (MAX_ID_RETRY - 1) pend (ldns_id_set packet id) (pos + 1)

/-- Checkout of the address family (addr_is_ip6): reads the leading
short of the sockaddr and compares it with AF_INET6. -/
def addr_is_ip6 (addr : Sockaddr) : Bool :=
  addr.family == AF_INET6

/-- Clamp of the floating-point derived index in select_port: the C code
computes chosen = (int)precho and then forces it into [0, nummax). -/
def chosenClamp (precho : Int) (nummax : Nat) : Nat :=
  if precho < 0 then 0
  else if (nummax : Int) ≤ precho then nummax - 1
  else precho.toNat

/-- Selection of the outgoing comm point (select_port): pick the family
list by the destination family; when it is empty, log and return with
the Pending's comm point left as it was (NULL); otherwise draw a random
word, convert it to an index through double arithmetic — modelled by
the uninterpreted rounding function round — clamp, and install the
chosen comm point.  Returns the updated Pending, the next random stream
position and the log trace. -/
def select_port (s : OutsideNetwork) (pend : Pending) (rnd : Nat → Nat)
    (pos : Nat) (round : Nat → Nat → Int) : Pending × Nat × List Event :=
  let nummax := if addr_is_ip6 pend.addr then s.num_udp6 else s.num_udp4
  if nummax = 0 then (pend, pos, [Event.logNoPorts])
  else
    let chosen := chosenClamp (round (rnd pos) nummax) nummax
    let c := if addr_is_ip6 pend.addr then s.udp6_ports.getD chosen none
             else s.udp4_ports.getD chosen none
    ({ pend with c := c }, pos + 1, [])

/-- Submission of a UDP query (pending_udp_query): create the Pending
(reporting NETEVENT_CLOSED to the user callback when new_pending fails),
select the egress comm point, send over it (the send syscall outcome is
the oracle sendOk), report NETEVENT_CLOSED and delete the Pending on
send failure, and otherwise arm the timer.  The insertion performed
inside new_pending and the later in-place writes to the same tree node
(comm point, timer) are applied before the final tree is built, which is
observationally identical since nothing reads the tree in between. -/
def pending_udp_query (s : OutsideNetwork) (packet : List Nat)
    (addr : Sockaddr) (addrlen : Nat) (_timeout : Nat) (cbTag : Nat)
    (rnd : Nat → Nat) (pos : Nat) (round : Nat → Nat → Int)
    (sendOk : Option Nat → Bool) : OutsideNetwork × List Event :=
  match new_pending s packet addr addrlen cbTag rnd pos with
  | (none, ev) => (s, ev ++ [Event.callback cbTag NetEvent.closed])
  | (some (pend, _packet1, pos1), ev) =>
    let sel := select_port s pend rnd pos1 round
    let pend1 := sel.1
    if sendOk pend1.c then
      ({ s with pending := { pend1 with timerArmed := true } :: s.pending },
       ev ++ sel.2.2 ++ [Event.send pend1.c])
    else
      (s, ev ++ sel.2.2 ++ [Event.send pend1.c,
        Event.callback pend1.cbTag NetEvent.closed])

/-- Creation of a range of UDP ports (make_udp_range): num_ports
attempts are made; the outcome of open_udp_port_range plus
comm_point_create_udp for attempt number k is abstracted into the oracle
(true = a comm point was created).  Attempts are numbered from start so
that every comm point created during one construction has a unique
identity; the fill position advances only on success, so the result is
the ordered list of created comm points, paired with the next attempt
number. -/
def make_udp_range (oracle : Nat → Bool) (start : Nat) (num_ports : Nat) :
    List Nat × Nat :=
  ((List.range num_ports).filterMap
    (fun i => if oracle (start + i) then some (start + i) else none),
   start + num_ports)

/-- Count of ip4 and ip6 ports to open (calc_num46): with no interfaces
the multiplier per enabled family; otherwise the number of interfaces of
each enabled family times the multiplier.  An interface is modelled by
its str_is_ip6 flag. -/
def calc_num46 (ifs : List Bool) (do_ip4 do_ip6 : Bool) (multiplier : Nat) :
    Nat × Nat :=
  if ifs.isEmpty then
    ((if do_ip4 then multiplier else 0), (if do_ip6 then multiplier else 0))
  else
    ((if do_ip4 then (ifs.countP (fun b => !b)) * multiplier else 0),
     (if do_ip6 then (ifs.countP (fun b => b)) * multiplier else 0))

/-- Per-interface step of the port-opening loop of
outside_network_create: an ip6 interface contributes to the udp6 list
when do_ip6 is set, an ip4 interface to the udp4 list when do_ip4 is
set.  The accumulator is (created4, created6, next attempt number). -/
def create_ports_step (oracle : Nat → Bool) (num_ports : Nat)
    (do_ip4 do_ip6 : Bool) (acc : List Nat × List Nat × Nat) (is6 : Bool) :
    List Nat × List Nat × Nat :=
  if is6 then
    if do_ip6 then
      let r := make_udp_range oracle acc.2.2 num_ports
      (acc.1, acc.2.1 ++ r.1, r.2)
    else acc
  else
    if do_ip4 then
      let r := make_udp_range oracle acc.2.2 num_ports
      (acc.1 ++ r.1, acc.2.1, r.2)
    else acc

/-- Comm points opened by outside_network_create, per family: with no
interfaces, ip6 first then ip4 (in case the second fails); with
interfaces, one pass over the interface list. -/
def create_ports (oracle : Nat → Bool) (num_ports : Nat) (ifs : List Bool)
    (do_ip4 do_ip6 : Bool) : List Nat × List Nat :=
  if ifs.isEmpty then
    let r6 := if do_ip6 then make_udp_range oracle 0 num_ports else ([], 0)
    let r4 := if do_ip4 then make_udp_range oracle r6.2 num_ports else ([], r6.2)
    (r4.1, r6.1)
  else
    let r := ifs.foldl (create_ports_step oracle num_ports do_ip4 do_ip6)
      ([], [], 0)
    (r.1, r.2.1)

/-- Port array as calloc and make_udp_range leave it: the created comm
points fill a prefix and the rest of the (size-cell) array stays NULL.
The C code allocates the arrays with one extra cell so it never
allocates zero bytes. -/
def fillArray (created : List Nat) (size : Nat) : List (Option Nat) :=
  created.map some ++ List.replicate (size - created.length) none

/-- Teardown of an outside_network (outside_network_delete), returned as
the list of comm points that get deleted: every non-NULL entry of the
first num_udp4 cells of the ip4 array, then likewise for ip6
(comm_point_delete ignores NULL).  The pending tree is drained and the
buffer freed as well; only the comm point closure is traced because that
is what the construction claims observe. -/
def outside_network_delete (o : OutsideNetwork) : List Nat :=
  ((o.udp4_ports.take o.num_udp4).filterMap id) ++
  ((o.udp6_ports.take o.num_udp6).filterMap id)

/-- Construction of the outside_network (outside_network_create):
compute the requested counts per family, open the ports (allocations of
the buffer, the arrays and the tree are assumed to succeed), and check
that every enabled family reached its requested count; on a shortfall
the partly built structure is deleted and an error (none) returned,
paired with the teardown trace.  With no interfaces the counts num_udp4
and num_udp6 hold the done counts at the check; with interfaces they
still hold the calc_num46 values at the check and are overwritten with
the done counts only after it passes, exactly as in the C control flow. -/
def outside_network_create (oracle : Nat → Bool) (num_ports : Nat)
    (ifs : List Bool) (do_ip4 do_ip6 : Bool) :
    Option OutsideNetwork × List Nat :=
  let calcn := calc_num46 ifs do_ip4 do_ip6 num_ports
  let created := create_ports oracle num_ports ifs do_ip4 do_ip6
  if ifs.isEmpty then
    let outnet : OutsideNetwork :=
      { pending := [], num_udp4 := created.1.length,
        udp4_ports := fillArray created.1 (calcn.1 + 1),
        num_udp6 := created.2.length,
        udp6_ports := fillArray created.2 (calcn.2 + 1) }
    if (do_ip4 && created.1.length != num_ports) ||
       (do_ip6 && created.2.length != num_ports) then
      (none, outside_network_delete outnet)
    else (some outnet, [])
  else
    let outnetAtCheck : OutsideNetwork :=
      { pending := [], num_udp4 := calcn.1,
        udp4_ports := fillArray created.1 (calcn.1 + 1),
        num_udp6 := calcn.2,
        udp6_ports := fillArray created.2 (calcn.2 + 1) }
    if created.2.length != calcn.2 || created.1.length != calcn.1 then
      (none, outside_network_delete outnetAtCheck)
    else
      (some { outnetAtCheck with
                num_udp4 := created.1.length
                num_udp6 := created.2.length }, [])

theorem idFromRandom_lt (r : Nat) : idFromRandom r < 65536 :=
  Nat.mod_lt _ (by norm_num)

theorem length_ldns_id_set (l : List Nat) (id : Nat) :
    (ldns_id_set l id).length = l.length := by
  simp [ldns_id_set]

theorem ldns_id_wire_ldns_id_set (l : List Nat) (id : Nat)
    (h2 : 2 ≤ l.length) (_hid : id < 65536) :
    ldns_id_wire (ldns_id_set l id) = id := by
  match l with
  | [] => simp at h2
  | [a] => simp at h2
  | a :: b :: t =>
    simp [ldns_id_set, ldns_id_wire, List.set]
    omega

theorem new_pending_go_none_snd (s : OutsideNetwork) (rnd : Nat → Nat) :
    ∀ (fuel : Nat) (pend : Pending) (packet : List Nat) (pos : Nat),
    (new_pending_go s rnd fuel pend packet pos).1 = none →
    (new_pending_go s rnd fuel pend packet pos).2 = [Event.logIdRetryFail] := by
  intro fuel
  induction fuel with
  | zero =>
    intro pend packet pos h
    by_cases hI : insertOk s pend
    · simp [new_pending_go, hI] at h
    · simp [new_pending_go, hI]
  | succ fuel' ih =>
    intro pend packet pos h
    by_cases hI : insertOk s pend
    · simp [new_pending_go, hI] at h
    · simp only [new_pending_go, hI, Bool.false_eq_true, if_false] at h ⊢
      exact ih _ _ _ h

theorem new_pending_none_snd (s : OutsideNetwork) (packet : List Nat)
    (addr : Sockaddr) (addrlen cbTag : Nat) (rnd : Nat → Nat) (pos : Nat)
    (h : (new_pending s packet addr addrlen cbTag rnd pos).1 = none) :
    (new_pending s packet addr addrlen cbTag rnd pos).2 = [Event.logIdRetryFail] := by
  unfold new_pending at h ⊢
  exact new_pending_go_none_snd s rnd _ _ _ _ h

theorem new_pending_go_none (s : OutsideNetwork) (rnd : Nat → Nat)
    (addr : Sockaddr) (addrlen cbTag : Nat)
    (H : ∀ k, insertOk s
      ⟨idFromRandom (rnd k), addr, addrlen, none, false, cbTag⟩ = false) :
    ∀ (fuel k0 : Nat) (packet : List Nat) (pos : Nat),
    new_pending_go s rnd fuel
      ⟨idFromRandom (rnd k0), addr, addrlen, none, false, cbTag⟩ packet pos
      = (none, [Event.logIdRetryFail]) := by
  intro fuel
  induction fuel with
  | zero =>
    intro k0 packet pos
    simp [new_pending_go, H k0]
  | succ fuel' ih =>
    intro k0 packet pos
    simp only [new_pending_go, H k0, Bool.false_eq_true, if_false]
    exact ih pos _ _

theorem new_pending_go_spec (s : OutsideNetwork) (rnd : Nat → Nat) :
    ∀ (fuel : Nat) (pend : Pending) (packet : List Nat) (pos : Nat)
    (pend2 : Pending) (packet2 : List Nat) (pos2 : Nat) (ev : List Event),
    2 ≤ packet.length → pend.id < 65536 →
    ldns_id_wire packet = pend.id →
    pend.id = idFromRandom (rnd (pos - 1)) →
    new_pending_go s rnd fuel pend packet pos = (some (pend2, packet2, pos2), ev) →
    ldns_id_wire packet2 = pend2.id ∧
    pend2.id = idFromRandom (rnd (pos2 - 1)) ∧
    pend2.id < 65536 ∧ insertOk s pend2 = true := by
  intro fuel
  induction fuel with
  | zero =>
    intro pend packet pos pend2 packet2 pos2 ev hlen hlt hwire hid h
    by_cases hI : insertOk s pend
    · simp only [new_pending_go, hI, if_true, Prod.mk.injEq, Option.some.injEq] at h
      obtain ⟨⟨rfl, rfl, rfl⟩, rfl⟩ := h
      exact ⟨hwire, hid, hlt, hI⟩
    · simp [new_pending_go, hI] at h
  | succ fuel' ih =>
    intro pend packet pos pend2 packet2 pos2 ev hlen hlt hwire hid h
    by_cases hI : insertOk s pend
    · simp only [new_pending_go, hI, if_true, Prod.mk.injEq, Option.some.injEq] at h
      obtain ⟨⟨rfl, rfl, rfl⟩, rfl⟩ := h
      exact ⟨hwire, hid, hlt, hI⟩
    · simp only [new_pending_go, hI, Bool.false_eq_true, if_false] at h
      refine ih { pend with id := idFromRandom (rnd pos) }
        (ldns_id_set packet (idFromRandom (rnd pos))) (pos + 1)
        pend2 packet2 pos2 ev ?_ ?_ ?_ ?_ h
      · rw [length_ldns_id_set]; exact hlen
      · exact idFromRandom_lt _
      · exact ldns_id_wire_ldns_id_set _ _ hlen (idFromRandom_lt _)
      · simp

theorem chosenClamp_lt (precho : Int) (n : Nat) (h : 0 < n) :
    chosenClamp precho n < n := by
  unfold chosenClamp
  split_ifs with h1 h2
  · exact h
  · omega
  · omega

/-- Concrete IPv4 destination address used by the concrete runs below. -/
def addrA : Sockaddr := { family := AF_INET, port := 53, addrBytes := [192, 0, 2, 1] }

/-- Concrete IPv6 destination address. -/
def addr6A : Sockaddr := { family := AF_INET6, port := 53, addrBytes := List.replicate 16 0 }

/-- A live Pending that occupies the key with id 0 towards addrA,
blocking every ID that a constant random stream generates. -/
def qBlock : Pending :=
  { id := 0, addr := addrA, addrlen := 16, c := some 1, timerArmed := true, cbTag := 3 }

/-- Dispatcher state whose index already holds qBlock. -/
def sBlock : OutsideNetwork :=
  { pending := [qBlock], num_udp4 := 1, udp4_ports := [some 5, none],
    num_udp6 := 0, udp6_ports := [none] }

/-- Dispatcher state with one ip4 comm point and no ip6 comm points. -/
def sEmpty6 : OutsideNetwork :=
  { pending := [], num_udp4 := 1, udp4_ports := [some 5, none],
    num_udp6 := 0, udp6_ports := [none] }

/-- A live Pending with id 0x1234 towards addrA whose chosen egress comm
point is number 5. -/
def pLive : Pending :=
  { id := 4660, addr := addrA, addrlen := 16, c := some 5, timerArmed := true, cbTag := 9 }

/-- Dispatcher state with pLive in the index and two ip4 comm points. -/
def sLive : OutsideNetwork :=
  { pending := [pLive], num_udp4 := 2, udp4_ports := [some 5, some 6, none],
    num_udp6 := 0, udp6_ports := [none] }

/-- Reply info carrying the source address of pLive's destination. -/
def replyA : CommReply := { addr := addrA, addrlen := 16 }

/-- C1: the claim states that on no-egress-for-family the dispatcher
destroys the Pending and returns without sending and without invoking
the user callback.  The code does not: select_port logs and returns
leaving pend->c NULL, and pending_udp_query proceeds to
comm_point_send_udp_msg with that NULL comm point.  Evaluating a submit
towards an IPv6 destination on a dispatcher with no IPv6 ports shows
the trace contains a send attempt on the NULL (none) comm point and,
the send reporting failure, a NETEVENT_CLOSED user callback — and the
Pending is deleted only after that, not before the send. -/
theorem no_egress_reaches_send_with_null_socket :
    pending_udp_query sEmpty6 [0, 0] addr6A 28 3 7 (fun _ => 0) 0
      (fun _ _ => 0) (fun _ => false)
      = (sEmpty6, [Event.logNoPorts, Event.send none,
                   Event.callback 7 NetEvent.closed]) := by
  rfl

/-- C2 counterexample: the claim states that when 1000 successive IDs
all collide the user callback is not invoked.  Running submit against
an index whose sole entry collides with every ID a constant random
stream generates shows the callback is invoked, with NETEVENT_CLOSED:
new_pending gives up and returns NULL, and pending_udp_query reports
the failure to the user callback. -/
theorem id_retry_exhausted_invokes_callback :
    pending_udp_query sBlock [0, 0] addrA 16 3 7 (fun _ => 0) 0
      (fun _ _ => 0) (fun _ => true)
      = (sBlock, [Event.logIdRetryFail, Event.callback 7 NetEvent.closed]) := by
  have hnone : new_pending sBlock [0, 0] addrA 16 7 (fun _ => 0) 0
      = (none, [Event.logIdRetryFail]) := by
    unfold new_pending
    exact new_pending_go_none sBlock (fun _ => 0) addrA 16 7
      (fun k => by
        show insertOk sBlock ⟨idFromRandom 0, addrA, 16, none, false, 7⟩ = false
        decide)
      (MAX_ID_RETRY - 1) 0 _ _
  simp [pending_udp_query, hnone]

/-- C2 amended: when ID generation is exhausted (new_pending returns
NULL after MAX_ID_RETRY collisions), the event is logged and the
Pending destroyed, but submit then invokes the user callback once with
NETEVENT_CLOSED; the index is left unchanged. -/
theorem id_retry_exhausted_reports_closed (s : OutsideNetwork)
    (packet : List Nat) (addr : Sockaddr) (addrlen timeout cbTag : Nat)
    (rnd : Nat → Nat) (pos : Nat) (round : Nat → Nat → Int)
    (sendOk : Option Nat → Bool)
    (h : (new_pending s packet addr addrlen cbTag rnd pos).1 = none) :
    pending_udp_query s packet addr addrlen timeout cbTag rnd pos round sendOk
      = (s, [Event.logIdRetryFail, Event.callback cbTag NetEvent.closed]) := by
  have hev := new_pending_none_snd s packet addr addrlen cbTag rnd pos h
  rcases hnp : new_pending s packet addr addrlen cbTag rnd pos with ⟨o, ev⟩
  rw [hnp] at h hev
  simp only at h hev
  subst h hev
  simp [pending_udp_query, hnp]

/-- C2 witness: the amended theorem applied at the concrete exhausted
run used by the counterexample (with a failing send oracle, which is
never consulted). -/
theorem id_retry_exhausted_reports_closed_witness :
    (new_pending sBlock [0, 0] addrA 16 7 (fun _ => 0) 0).1 = none ∧
    pending_udp_query sBlock [0, 0] addrA 16 3 7 (fun _ => 0) 0
      (fun _ _ => 0) (fun _ => false)
      = (sBlock, [Event.logIdRetryFail, Event.callback 7 NetEvent.closed]) := by
  have hnone : new_pending sBlock [0, 0] addrA 16 7 (fun _ => 0) 0
      = (none, [Event.logIdRetryFail]) := by
    unfold new_pending
    exact new_pending_go_none sBlock (fun _ => 0) addrA 16 7
      (fun k => by
        show insertOk sBlock ⟨idFromRandom 0, addrA, 16, none, false, 7⟩ = false
        decide)
      (MAX_ID_RETRY - 1) 0 _ _
  refine ⟨by rw [hnone], ?_⟩
  exact id_retry_exhausted_reports_closed sBlock [0, 0] addrA 16 3 7
    (fun _ => 0) 0 (fun _ _ => 0) (fun _ => false) (by rw [hnone])

/-- C3: a received datagram whose key matches a live Pending but whose
receiving comm point differs from the Pending's chosen egress is
dropped: the state (index, Pendings, timers) is returned unchanged with
only the wrong-port log line, no callback fires, and the matched
Pending is still a member of the index. -/
theorem wrong_socket_reply_dropped (s : OutsideNetwork) (c : Nat)
    (buffer : List Nat) (reply : CommReply) (p : Pending)
    (hfind : s.pending.find? (fun q => pending_cmp q (reply_key buffer reply) == 0)
      = some p)
    (hc : p.c ≠ some c) :
    outnet_udp_cb s c buffer NetEvent.noerror reply = (s, [Event.logWrongPort]) ∧
    p ∈ s.pending := by
  refine ⟨?_, List.mem_of_find?_eq_some hfind⟩
  simp [outnet_udp_cb, hfind, hc]

/-- C3 witness: the wrong-port drop evaluated on a dispatcher holding
pLive (egress comm point 5) when its reply arrives on comm point 6. -/
theorem wrong_socket_reply_dropped_witness :
    sLive.pending.find?
      (fun q => pending_cmp q (reply_key [18, 52] replyA) == 0) = some pLive ∧
    pLive.c ≠ some 6 ∧
    outnet_udp_cb sLive 6 [18, 52] NetEvent.noerror replyA
      = (sLive, [Event.logWrongPort]) := by
  refine ⟨by rfl, by decide, ?_⟩
  exact (wrong_socket_reply_dropped sLive 6 [18, 52] replyA pLive (by rfl)
    (by decide)).1

/-- C5: on every successful new_pending, the 16-bit ID written into the
first two bytes of the outgoing packet equals the ID stored in the
returned Pending — which is itself the rbtree key — including across
collision-driven regenerations, and that ID is derived from the last
random word drawn by discarding the low byte before masking to 16 bits
(idFromRandom); moreover the stored key was free in the index. -/
theorem packet_id_matches_pending_id (s : OutsideNetwork) (packet : List Nat)
    (addr : Sockaddr) (addrlen cbTag : Nat) (rnd : Nat → Nat) (pos : Nat)
    (pend2 : Pending) (packet2 : List Nat) (pos2 : Nat) (ev : List Event)
    (hlen : 2 ≤ packet.length)
    (h : new_pending s packet addr addrlen cbTag rnd pos
      = (some (pend2, packet2, pos2), ev)) :
    ldns_id_wire packet2 = pend2.id ∧
    pend2.id = idFromRandom (rnd (pos2 - 1)) ∧
    pend2.id < 65536 ∧ insertOk s pend2 = true := by
  unfold new_pending at h
  refine new_pending_go_spec s rnd (MAX_ID_RETRY - 1) _ _ (pos + 1)
    pend2 packet2 pos2 ev ?_ ?_ ?_ ?_ h
  · rw [length_ldns_id_set]; exact hlen
  · exact idFromRandom_lt _
  · exact ldns_id_wire_ldns_id_set _ _ hlen (idFromRandom_lt _)
  · simp

/-- C5 witness: a concrete successful submit with random word 259: the
Pending's ID is (259 >> 8) & 0xffff = 1, written into the packet as
bytes 0, 1. -/
theorem packet_id_matches_pending_id_witness :
    new_pending sEmpty6 [0, 0] addrA 16 7 (fun _ => 259) 0
      = (some ({ id := 1, addr := addrA, addrlen := 16, c := none,
                 timerArmed := false, cbTag := 7 }, [0, 1], 1), []) ∧
    ldns_id_wire [0, 1] = 1 := by
  refine ⟨by rfl, ?_⟩
  exact (packet_id_matches_pending_id sEmpty6 [0, 0] addrA 16 7 (fun _ => 259) 0
    { id := 1, addr := addrA, addrlen := 16, c := none,
      timerArmed := false, cbTag := 7 } [0, 1] 1 [] (by decide) (by rfl)).1

/-- C8: with a non-empty pool for the destination family, the index
computed by select_port is clamped into [0, N) whatever integer the
double arithmetic produced, and the Pending's comm point is assigned
from that family's pool array at the clamped index. -/
theorem select_port_chosen_in_range (s : OutsideNetwork) (pend : Pending)
    (rnd : Nat → Nat) (pos : Nat) (round : Nat → Nat → Int)
    (nummax : Nat)
    (hn : nummax = (if addr_is_ip6 pend.addr then s.num_udp6 else s.num_udp4))
    (h : 0 < nummax) :
    chosenClamp (round (rnd pos) nummax) nummax < nummax ∧
    select_port s pend rnd pos round =
      ({ pend with c := (if addr_is_ip6 pend.addr then s.udp6_ports else s.udp4_ports).getD (chosenClamp (round (rnd pos) nummax) nummax) none },
       pos + 1, []) := by
  refine ⟨chosenClamp_lt _ _ h, ?_⟩
  by_cases h6 : addr_is_ip6 pend.addr
  · rw [if_pos h6] at hn
    subst hn
    simp [select_port, h6, Nat.pos_iff_ne_zero.mp h]
  · rw [if_neg h6] at hn
    subst hn
    simp [select_port, h6, Nat.pos_iff_ne_zero.mp h]

/-- C8 witness: applied on sLive (two ip4 ports) with a rounding
outcome of 5, clamped to index 1, selecting comm point 6. -/
theorem select_port_chosen_in_range_witness :
    chosenClamp 5 2 < 2 ∧
    select_port sLive pLive (fun _ => 0) 0 (fun _ _ => 5)
      = ({ pLive with c := some 6 }, 1, []) := by
  have h := select_port_chosen_in_range sLive pLive (fun _ => 0) 0
    (fun _ _ => 5) 2 (by decide) (by decide)
  exact ⟨by decide, by rw [h.2]; rfl⟩

/-- C10: a receive event delivered to outnet_udp_cb with a nonzero
error status only logs: the state — index, Pendings and timers — is
returned unchanged, no callback is invoked and no lookup is reached. -/
theorem udp_error_drops_without_state_change (s : OutsideNetwork) (c : Nat)
    (buffer : List Nat) (error : NetEvent) (reply : CommReply)
    (h : error ≠ NetEvent.noerror) :
    outnet_udp_cb s c buffer error reply = (s, [Event.logUdpError]) := by
  simp [outnet_udp_cb, h]

/-- C10 witness: the error path evaluated at NETEVENT_CLOSED on the
sLive dispatcher. -/
theorem udp_error_drops_without_state_change_witness :
    NetEvent.closed ≠ NetEvent.noerror ∧
    outnet_udp_cb sLive 5 [18, 52] NetEvent.closed replyA
      = (sLive, [Event.logUdpError]) :=
  ⟨by decide, udp_error_drops_without_state_change sLive 5 [18, 52]
    NetEvent.closed replyA (by decide)⟩

theorem pendingVec_eq_iff_known (p q : Pending)
    (hf : p.addr.family = AF_INET ∨ p.addr.family = AF_INET6) :
    (pendingVec p = pendingVec q ↔ specKeyTuple p = specKeyTuple q) := by
  rcases hf with hf | hf
  · have hne : p.addr.family ≠ AF_INET6 := by rw [hf]; decide
    constructor
    · intro h
      simp only [pendingVec, List.cons.injEq] at h
      obtain ⟨hid, hlen, hfam, htail⟩ := h
      have hq : q.addr.family = AF_INET := hfam.symm.trans hf
      rw [if_pos hf, if_pos hq, List.cons.injEq] at htail
      simp [specKeyTuple, hf, hq, hid, hlen, hfam, htail.1, htail.2]
    · intro h
      simp only [specKeyTuple, Prod.mk.injEq] at h
      obtain ⟨hid, hlen, hfam, hport, hbytes⟩ := h
      have hq : q.addr.family = AF_INET := hfam.symm.trans hf
      rw [if_pos hf, if_pos hq] at hbytes
      simp [pendingVec, hf, hq, hid, hlen, hfam, hport, hbytes]
  · have hne : p.addr.family ≠ AF_INET := by rw [hf]; decide
    constructor
    · intro h
      simp only [pendingVec, List.cons.injEq] at h
      obtain ⟨hid, hlen, hfam, htail⟩ := h
      have hq : q.addr.family = AF_INET6 := hfam.symm.trans hf
      have hqne : q.addr.family ≠ AF_INET := by rw [hq]; decide
      rw [if_neg hne, if_pos hf, if_neg hqne, if_pos hq, List.cons.injEq] at htail
      simp [specKeyTuple, hf, hq, hne, hqne, hid, hlen, hfam, htail.1, htail.2,
        (by decide : ¬(AF_INET6 = AF_INET))]
    · intro h
      simp only [specKeyTuple, Prod.mk.injEq] at h
      obtain ⟨hid, hlen, hfam, hport, hbytes⟩ := h
      have hq : q.addr.family = AF_INET6 := hfam.symm.trans hf
      have hqne : q.addr.family ≠ AF_INET := by rw [hq]; decide
      rw [if_neg hne, if_pos hf, if_neg hqne, if_pos hq] at hbytes
      simp [pendingVec, hf, hq, hne, hqne, hid, hlen, hfam, hport, hbytes,
        (by decide : ¬(AF_INET6 = AF_INET))]

/-- C7 counterexample: two keys with equal id, addrlen 2 and the same
unknown family 99 but different ports compare equal under pending_cmp —
the fallback memcmp covers only the first addrlen = 2 storage bytes,
which are the family short — while their full key tuples differ in the
port.  This refutes that pending_cmp returns 0 exactly when the full
key tuples are equal. -/
theorem pending_cmp_zero_with_unequal_tuples :
    pending_cmp
        { id := 0, addr := { family := 99, port := 1, addrBytes := [] },
          addrlen := 2, c := none, timerArmed := false, cbTag := 0 }
        { id := 0, addr := { family := 99, port := 2, addrBytes := [] },
          addrlen := 2, c := none, timerArmed := false, cbTag := 0 } = 0 ∧
    specKeyTuple
        { id := 0, addr := { family := 99, port := 1, addrBytes := [] },
          addrlen := 2, c := none, timerArmed := false, cbTag := 0 } ≠
      specKeyTuple
        { id := 0, addr := { family := 99, port := 2, addrBytes := [] },
          addrlen := 2, c := none, timerArmed := false, cbTag := 0 } := by
  decide

/-- C7 amended: pending_cmp is exactly the lexicographic comparison of
the serialized key fields in the order id, addrlen, family, then — for
the known families — port and the 4 (AF_INET) or 16 (AF_INET6) address
bytes, and for unknown families the first addrlen bytes of the address
storage; it is antisymmetric in sign and transitive, hence a total
preorder; and it returns 0 exactly when those compared serializations
are equal, which for known families coincides with equality of the full
key tuple (but for unknown families need not, as the counterexample
shows). -/
theorem pending_cmp_lex_total_preorder (p q r : Pending) :
    pending_cmp p q = listCompare (pendingVec p) (pendingVec q) ∧
    pending_cmp q p = -pending_cmp p q ∧
    (pending_cmp p q ≤ 0 → pending_cmp q r ≤ 0 → pending_cmp p r ≤ 0) ∧
    (pending_cmp p q = 0 ↔ pendingVec p = pendingVec q) ∧
    ((p.addr.family = AF_INET ∨ p.addr.family = AF_INET6) →
      (pending_cmp p q = 0 ↔ specKeyTuple p = specKeyTuple q)) := by
  refine ⟨pending_cmp_eq_listCompare p q, pending_cmp_swap p q, ?_,
    pending_cmp_zero_iff p q, ?_⟩
  · intro h1 h2
    rw [pending_cmp_eq_listCompare] at h1 h2 ⊢
    exact listCompare_trans _ _ _ h1 h2
  · intro hf
    rw [pending_cmp_zero_iff]
    exact pendingVec_eq_iff_known p q hf

/-- C7 witness: the amended theorem applied at concrete keys — the
lexicographic equation, an instantiated transitivity step, and the
known-family tuple characterisation. -/
theorem pending_cmp_lex_total_preorder_witness :
    pending_cmp pLive qBlock = listCompare (pendingVec pLive) (pendingVec qBlock) ∧
    pending_cmp pLive pLive ≤ 0 ∧
    (pending_cmp pLive qBlock = 0 ↔ specKeyTuple pLive = specKeyTuple qBlock) := by
  have h1 := pending_cmp_lex_total_preorder pLive qBlock pLive
  have h2 := pending_cmp_lex_total_preorder pLive pLive pLive
  exact ⟨h1.1, h2.2.2.1 (by decide) (by decide), h1.2.2.2.2 (Or.inl (by decide))⟩

theorem eraseP_no_match (l : List Pending) (p : Pending)
    (hwf : l.Pairwise (fun a b => pending_cmp a b ≠ 0)) (hmem : p ∈ l) :
    ∀ q ∈ l.eraseP (fun q => pending_cmp q p == 0), pending_cmp q p ≠ 0 := by
  have hpp : (pending_cmp p p == 0) = true := by simp [pending_cmp_self]
  obtain ⟨a, l1, l2, hl1, hpa, hl, he⟩ :=
    List.exists_of_eraseP (p := fun q => pending_cmp q p == 0) hmem hpp
  rw [he]
  intro q hq hq0
  rcases List.mem_append.mp hq with hql | hqr
  · have h1 : ¬ (pending_cmp q p == 0) = true := hl1 q hql
    simp only [beq_iff_eq] at h1
    exact h1 hq0
  · have ha0 : pending_cmp a p = 0 := by simpa using hpa
    rw [hl] at hwf
    have hpair : pending_cmp a q ≠ 0 := by
      have hcross := (List.pairwise_append.mp hwf).2.1
      exact (List.pairwise_cons.mp hcross).1 q hqr
    exact hpair (pending_cmp_zero_trans ha0 (pending_cmp_zero_symm hq0))

/-- C4: when a Pending's timeout fires, pending_udp_timer_cb invokes
the user callback once with NETEVENT_TIMEOUT and removes the Pending
from the index before returning, so a reply matching that Pending's key
delivered afterwards finds no index entry and is dropped (unsolicited)
with no callback and no state change; the callback therefore cannot
fire a second time for that query. -/
theorem timeout_removes_pending_then_reply_misses (s : OutsideNetwork)
    (p : Pending) (c : Nat) (buffer : List Nat) (reply : CommReply)
    (hwf : s.pending.Pairwise (fun a b => pending_cmp a b ≠ 0))
    (hmem : p ∈ s.pending)
    (hkey : pending_cmp (reply_key buffer reply) p = 0) :
    pending_udp_timer_cb s p
      = (pending_delete s p, [Event.callback p.cbTag NetEvent.timeout]) ∧
    (∀ q ∈ (pending_delete s p).pending, pending_cmp q p ≠ 0) ∧
    outnet_udp_cb (pending_delete s p) c buffer NetEvent.noerror reply
      = (pending_delete s p, [Event.logUnsolicited]) := by
  have hgone := eraseP_no_match s.pending p hwf hmem
  refine ⟨rfl, hgone, ?_⟩
  have hnone : (pending_delete s p).pending.find?
      (fun q => pending_cmp q (reply_key buffer reply) == 0) = none := by
    rw [List.find?_eq_none]
    intro q hq
    simp only [beq_iff_eq]
    intro h0
    exact hgone q hq (pending_cmp_zero_trans h0 hkey)
  simp [outnet_udp_cb, hnone]

/-- C4 witness: the theorem applied to the dispatcher holding pLive:
after the timeout fires, the matching reply (id 0x1234 from addrA) is
dropped as unsolicited. -/
theorem timeout_removes_pending_then_reply_misses_witness :
    pending_udp_timer_cb sLive pLive
      = (pending_delete sLive pLive, [Event.callback 9 NetEvent.timeout]) ∧
    outnet_udp_cb (pending_delete sLive pLive) 5 [18, 52] NetEvent.noerror replyA
      = (pending_delete sLive pLive, [Event.logUnsolicited]) := by
  have h := timeout_removes_pending_then_reply_misses sLive pLive 5 [18, 52]
    replyA (by simp [sLive]) (by simp [sLive]) (by decide)
  exact ⟨h.1, h.2.2⟩

theorem filterMap_id_replicate_none (k : Nat) :
    (List.replicate k (none : Option Nat)).filterMap id = [] := by
  induction k with
  | zero => rfl
  | succ k ih => simp [List.replicate_succ, ih]

theorem take_fill_filterMap (xs : List Nat) (k n : Nat) (h : xs.length ≤ n) :
    ((xs.map some ++ List.replicate k (none : Option Nat)).take n).filterMap id
      = xs := by
  induction xs generalizing n with
  | nil =>
    simp only [List.map_nil, List.nil_append, List.take_replicate]
    exact filterMap_id_replicate_none _
  | cons x xs ih =>
    cases n with
    | zero => simp at h
    | succ n =>
      simp only [List.map_cons, List.cons_append, List.take_succ_cons,
        List.filterMap_cons, id]
      rw [ih n (Nat.le_of_succ_le_succ h)]

theorem getD_fill (xs : List Nat) (k i : Nat) (h : i < xs.length) :
    (xs.map some ++ List.replicate k (none : Option Nat)).getD i none
      = some (xs.getD i 0) := by
  induction xs generalizing i with
  | nil => simp at h
  | cons x xs ih =>
    cases i with
    | zero => simp
    | succ i =>
      simp only [List.map_cons, List.cons_append, List.getD_cons_succ]
      exact ih i (by simpa using h)

theorem outside_network_delete_fill (created4 created6 : List Nat)
    (n4 n6 s4 s6 : Nat) (h4 : created4.length ≤ n4) (h6 : created6.length ≤ n6) :
    outside_network_delete
      { pending := [], num_udp4 := n4, udp4_ports := fillArray created4 s4,
        num_udp6 := n6, udp6_ports := fillArray created6 s6 }
      = created4 ++ created6 := by
  simp only [outside_network_delete, fillArray]
  rw [take_fill_filterMap _ _ _ h4, take_fill_filterMap _ _ _ h6]

theorem make_udp_range_length_le (oracle : Nat → Bool) (start np : Nat) :
    (make_udp_range oracle start np).1.length ≤ np := by
  simp only [make_udp_range]
  exact (List.length_filterMap_le _ _).trans (by simp)

theorem foldl_create_ports_bound (oracle : Nat → Bool) (np : Nat)
    (do4 do6 : Bool) :
    ∀ (ifs : List Bool) (acc : List Nat × List Nat × Nat),
    (ifs.foldl (create_ports_step oracle np do4 do6) acc).1.length
       ≤ acc.1.length + (ifs.countP (fun b => !b)) * np ∧
    (ifs.foldl (create_ports_step oracle np do4 do6) acc).2.1.length
       ≤ acc.2.1.length + (ifs.countP (fun b => b)) * np ∧
    (do4 = false → (ifs.foldl (create_ports_step oracle np do4 do6) acc).1 = acc.1) ∧
    (do6 = false → (ifs.foldl (create_ports_step oracle np do4 do6) acc).2.1 = acc.2.1) := by
  intro ifs
  induction ifs with
  | nil => intro acc; simp
  | cons b rest ih =>
    intro acc
    rw [List.foldl_cons]
    cases b with
    | false =>
      have hcnt4 : List.countP (fun b => !b) (false :: rest)
          = List.countP (fun b => !b) rest + 1 := by simp
      have hcnt6 : List.countP (fun b => b) (false :: rest)
          = List.countP (fun b => b) rest := by simp
      rw [hcnt4, hcnt6, Nat.succ_mul]
      cases do4 with
      | false =>
        have hacc : create_ports_step oracle np false do6 acc false = acc := by
          simp [create_ports_step]
        rw [hacc]
        have hstep := ih acc
        refine ⟨?_, hstep.2.1, fun _ => hstep.2.2.1 rfl, hstep.2.2.2⟩
        have h1 := hstep.1
        omega
      | true =>
        have hacc : create_ports_step oracle np true do6 acc false
            = (acc.1 ++ (make_udp_range oracle acc.2.2 np).1, acc.2.1,
               (make_udp_range oracle acc.2.2 np).2) := by
          simp [create_ports_step]
        rw [hacc]
        have hstep := ih (acc.1 ++ (make_udp_range oracle acc.2.2 np).1, acc.2.1,
          (make_udp_range oracle acc.2.2 np).2)
        have h1 := hstep.1
        have h2 := hstep.2.1
        simp only [List.length_append] at h1 h2
        have hr := make_udp_range_length_le oracle acc.2.2 np
        exact ⟨by omega, h2, fun h => Bool.noConfusion h, hstep.2.2.2⟩
    | true =>
      have hcnt4 : List.countP (fun b => !b) (true :: rest)
          = List.countP (fun b => !b) rest := by simp
      have hcnt6 : List.countP (fun b => b) (true :: rest)
          = List.countP (fun b => b) rest + 1 := by simp
      rw [hcnt4, hcnt6, Nat.succ_mul]
      cases do6 with
      | false =>
        have hacc : create_ports_step oracle np do4 false acc true = acc := by
          simp [create_ports_step]
        rw [hacc]
        have hstep := ih acc
        refine ⟨hstep.1, ?_, hstep.2.2.1, fun _ => hstep.2.2.2 rfl⟩
        have h2 := hstep.2.1
        omega
      | true =>
        have hacc : create_ports_step oracle np do4 true acc true
            = (acc.1, acc.2.1 ++ (make_udp_range oracle acc.2.2 np).1,
               (make_udp_range oracle acc.2.2 np).2) := by
          simp [create_ports_step]
        rw [hacc]
        have hstep := ih (acc.1, acc.2.1 ++ (make_udp_range oracle acc.2.2 np).1,
          (make_udp_range oracle acc.2.2 np).2)
        have h1 := hstep.1
        have h2 := hstep.2.1
        simp only [List.length_append] at h1 h2
        have hr := make_udp_range_length_le oracle acc.2.2 np
        exact ⟨h1, by omega, hstep.2.2.1, fun h => Bool.noConfusion h⟩

theorem create_ports_length_le (oracle : Nat → Bool) (np : Nat)
    (ifs : List Bool) (do4 do6 : Bool) :
    (create_ports oracle np ifs do4 do6).1.length
      ≤ (calc_num46 ifs do4 do6 np).1 ∧
    (create_ports oracle np ifs do4 do6).2.length
      ≤ (calc_num46 ifs do4 do6 np).2 := by
  by_cases he : ifs.isEmpty
  · simp only [create_ports, calc_num46, he, if_true]
    cases do4 with
    | false =>
      cases do6 with
      | false => simp
      | true => simp [make_udp_range_length_le]
    | true =>
      cases do6 with
      | false => simp [make_udp_range_length_le]
      | true => simp [make_udp_range_length_le]
  · simp only [create_ports, calc_num46, he, if_false, Bool.false_eq_true]
    have hb := foldl_create_ports_bound oracle np do4 do6 ifs ([], [], 0)
    cases do4 with
    | false =>
      cases do6 with
      | false => simp [hb.2.2.1 rfl, hb.2.2.2 rfl]
      | true =>
        refine ⟨by simp [hb.2.2.1 rfl], ?_⟩
        have h2 := hb.2.1
        simpa using h2
    | true =>
      cases do6 with
      | false =>
        refine ⟨?_, by simp [hb.2.2.2 rfl]⟩
        have h1 := hb.1
        simpa using h1
      | true =>
        have h1 := hb.1
        have h2 := hb.2.1
        exact ⟨by simpa using h1, by simpa using h2⟩

/-- C6: whenever the number of comm points actually opened for an
enabled family differs from the requested count for that family (the
calc_num46 value; for a disabled family both are trivially zero),
outside_network_create tears the partly built pool down — the
teardown trace deletes exactly the comm points that were created, for
both families — and returns an error (none) instead of a dispatcher. -/
theorem create_shortfall_tears_down (oracle : Nat → Bool) (num_ports : Nat)
    (ifs : List Bool) (do_ip4 do_ip6 : Bool)
    (h : (create_ports oracle num_ports ifs do_ip4 do_ip6).1.length
           ≠ (calc_num46 ifs do_ip4 do_ip6 num_ports).1 ∨
         (create_ports oracle num_ports ifs do_ip4 do_ip6).2.length
           ≠ (calc_num46 ifs do_ip4 do_ip6 num_ports).2) :
    outside_network_create oracle num_ports ifs do_ip4 do_ip6
      = (none, (create_ports oracle num_ports ifs do_ip4 do_ip6).1
          ++ (create_ports oracle num_ports ifs do_ip4 do_ip6).2) := by
  by_cases he : ifs.isEmpty
  · rw [List.isEmpty_iff] at he
    subst he
    simp only [outside_network_create, List.isEmpty_nil, if_true]
    cases do_ip4 with
    | false =>
      cases do_ip6 with
      | false => simp [create_ports, calc_num46] at h
      | true =>
        simp only [create_ports, calc_num46, List.isEmpty_nil, if_true,
          if_false, Bool.false_eq_true] at h ⊢
        have h6 : (make_udp_range oracle 0 num_ports).1.length ≠ num_ports := by
          rcases h with h | h
          · simp at h
          · exact h
        simp only [Bool.false_and, Bool.false_or, Bool.true_and]
        rw [if_pos (by simpa [bne_iff_ne] using h6)]
        rw [outside_network_delete_fill _ _ _ _ _ _ (Nat.le_refl _) (Nat.le_refl _)]
    | true =>
      cases do_ip6 with
      | false =>
        simp only [create_ports, calc_num46, List.isEmpty_nil, if_true,
          if_false, Bool.false_eq_true] at h ⊢
        have h4 : (make_udp_range oracle 0 num_ports).1.length ≠ num_ports := by
          rcases h with h | h
          · exact h
          · simp at h
        simp only [Bool.false_and, Bool.or_false, Bool.true_and]
        rw [if_pos (by simpa [bne_iff_ne] using h4)]
        rw [outside_network_delete_fill _ _ _ _ _ _ (Nat.le_refl _) (Nat.le_refl _)]
      | true =>
        simp only [create_ports, calc_num46, List.isEmpty_nil, if_true] at h ⊢
        simp only [Bool.true_and]
        have hcond : (((make_udp_range oracle (make_udp_range oracle 0 num_ports).2
              num_ports).1.length != num_ports)
            || ((make_udp_range oracle 0 num_ports).1.length != num_ports)) = true := by
          rcases h with h | h
          · simp [bne_iff_ne]
            exact Or.inl h
          · simp [bne_iff_ne]
            exact Or.inr h
        rw [if_pos hcond]
        rw [outside_network_delete_fill _ _ _ _ _ _ (Nat.le_refl _) (Nat.le_refl _)]
  · simp only [outside_network_create, he, if_false, Bool.false_eq_true]
    have hle := create_ports_length_le oracle num_ports ifs do_ip4 do_ip6
    have hcond : (((create_ports oracle num_ports ifs do_ip4 do_ip6).2.length
          != (calc_num46 ifs do_ip4 do_ip6 num_ports).2)
        || ((create_ports oracle num_ports ifs do_ip4 do_ip6).1.length
          != (calc_num46 ifs do_ip4 do_ip6 num_ports).1)) = true := by
      rcases h with h | h
      · simp [bne_iff_ne]
        exact Or.inr h
      · simp [bne_iff_ne]
        exact Or.inl h
    rw [if_pos hcond]
    rw [outside_network_delete_fill _ _ _ _ _ _ hle.1 hle.2]

/-- C6 witness: requesting 2 IPv4 ports with the first bind attempt
failing opens only comm point 1; create returns an error and the
teardown trace deletes exactly that comm point. -/
theorem create_shortfall_tears_down_witness :
    (create_ports (fun k => k != 0) 2 [] true false).1.length
      ≠ (calc_num46 [] true false 2).1 ∧
    outside_network_create (fun k => k != 0) 2 [] true false = (none, [1]) := by
  refine ⟨by decide, ?_⟩
  have h := create_shortfall_tears_down (fun k => k != 0) 2 [] true false
    (Or.inl (by decide))
  rw [h]
  rfl

/-- C9: after a successful outside_network_create, the per-family port
arrays are hole-free prefixes: every index below num_udp4 holds a
non-NULL comm point in udp4_ports, and likewise for num_udp6 and
udp6_ports, because make_udp_range advances its fill position only on a
successfully created comm point. -/
theorem create_port_arrays_hole_free (oracle : Nat → Bool) (num_ports : Nat)
    (ifs : List Bool) (do_ip4 do_ip6 : Bool) (onet : OutsideNetwork)
    (tr : List Nat)
    (h : outside_network_create oracle num_ports ifs do_ip4 do_ip6
      = (some onet, tr)) :
    (∀ i, i < onet.num_udp4 → onet.udp4_ports.getD i none ≠ none) ∧
    (∀ i, i < onet.num_udp6 → onet.udp6_ports.getD i none ≠ none) := by
  simp only [outside_network_create] at h
  by_cases he : ifs.isEmpty
  · rw [if_pos he] at h
    split at h
    · exact absurd h (by simp)
    · simp only [Prod.mk.injEq, Option.some.injEq] at h
      obtain ⟨rfl, rfl⟩ := h
      constructor
      · intro i hi
        simp only at hi ⊢
        rw [fillArray, getD_fill _ _ _ hi]
        simp
      · intro i hi
        simp only at hi ⊢
        rw [fillArray, getD_fill _ _ _ hi]
        simp
  · rw [if_neg he] at h
    split at h
    · exact absurd h (by simp)
    · simp only [Prod.mk.injEq, Option.some.injEq] at h
      obtain ⟨rfl, rfl⟩ := h
      constructor
      · intro i hi
        simp only at hi ⊢
        rw [fillArray, getD_fill _ _ _ hi]
        simp
      · intro i hi
        simp only at hi ⊢
        rw [fillArray, getD_fill _ _ _ hi]
        simp

/-- Dispatcher built by the C9 witness run: one port per family, both
binds succeeding (ip6 gets attempt 0, ip4 attempt 1). -/
def onetW : OutsideNetwork :=
  { pending := [], num_udp4 := 1, udp4_ports := [some 1, none],
    num_udp6 := 1, udp6_ports := [some 0, none] }

/-- C9 witness: the hole-free-prefix invariant applied to a successful
concrete construction. -/
theorem create_port_arrays_hole_free_witness :
    outside_network_create (fun _ => true) 1 [] true true = (some onetW, []) ∧
    onetW.udp4_ports.getD 0 none ≠ none ∧
    onetW.udp6_ports.getD 0 none ≠ none := by
  have hc : outside_network_create (fun _ => true) 1 [] true true
      = (some onetW, []) := by rfl
  have h := create_port_arrays_hole_free (fun _ => true) 1 [] true true onetW [] hc
  exact ⟨hc, h.1 0 (by decide), h.2 0 (by decide)⟩
